import Mathlib

/-!
Shallow embedding of the serial file-transfer protocol of the
secureFileTransfer_FTDI repository, translated from usb_bridge_session.py
(class SerialBridge, methods _send_file and _recv_loop) together with the
configuration constants at the top of that file.  Bytes are modelled as
natural numbers below 256, byte strings as `List Nat`, and the blocking
serial link as a finite list of pending inbound bytes: a read of n bytes
succeeds exactly when n bytes are pending, and a read that would block
forever (stream exhausted) is modelled as `none`.  Python struct.pack
calls, which raise struct.error when a value does not fit the requested
width, are modelled as `Option`-returning pack functions.
-/

namespace USBBridge

/-- CHUNK = 4096, the fixed chunk size used by the sender (source line 15). -/
def CHUNK : Nat := 4096

/-- CHUNK_RETRIES = 5, the per-chunk retry budget of the sender (source line 17). -/
def CHUNK_RETRIES : Nat := 5

/-- HEADER_RETRIES = 8, the handshake retry budget of the sender (source line 18). -/
def HEADER_RETRIES : Nat := 8

/-- The four magic bytes b\x27FILE\x27 that begin a transfer header. -/
def fileMagic : List Nat := [70, 73, 76, 69]

/-- The four byte end-of-stream sentinel b\x27DONE\x27 (source line 126). -/
def doneFrame : List Nat := [68, 79, 78, 69]

/-- The three byte tag b\x27ACK\x27 of a positive chunk reply. -/
def ackTag : List Nat := [65, 67, 75]

/-- The three byte tag b\x27NAK\x27 of a negative chunk reply. -/
def nakTag : List Nat := [78, 65, 75]

/-- Big-endian encoding of n into exactly w bytes (the byte layout produced
by struct.pack for an in-range unsigned value). -/
def toBytesBE : Nat → Nat → List Nat
  | 0, _ => []
  | w + 1, n => toBytesBE w (n / 256) ++ [n % 256]

/-- Big-endian decoding of a byte list, as struct.unpack does for
unsigned fields. -/
def fromBytesBE (bs : List Nat) : Nat :=
  bs.foldl (fun a b => a * 256 + b) 0

/-- Model of struct.pack for one unsigned big-endian field of w bytes:
struct.error (modelled as none) when the value does not fit. -/
def packBE (w n : Nat) : Option (List Nat) :=
  if n < 2 ^ (8 * w) then some (toBytesBE w n) else none

/-- Model of a blocking serial read of exactly n bytes from the pending
input s: returns the bytes read and the remaining input, or none when the
read would block forever because fewer than n bytes ever arrive. -/
def readExact (n : Nat) (s : List Nat) : Option (List Nat × List Nat) :=
  if n ≤ s.length then some (s.take n, s.drop n) else none

/-- One bit-level round of the reflected CRC-32 computation with the
standard polynomial 0xEDB88320, as implemented by zlib.crc32. -/
def crcRound (c : Nat) : Nat :=
  if c % 2 = 1 then Nat.xor (c / 2) 3988292384 else c / 2

/-- Eight CRC rounds, one full input byte. -/
def crcRounds : Nat → Nat → Nat
  | 0, c => c
  | n + 1, c => crcRounds n (crcRound c)

/-- zlib.crc32 over a byte list (initial value 0xFFFFFFFF, final
complement).  The percent 256 keeps the model total on Nat; Python byte
strings always satisfy b < 256, where it is the identity. -/
def crc32 (data : List Nat) : Nat :=
  Nat.xor (data.foldl (fun c b => crcRounds 8 (Nat.xor c (b % 256))) 4294967295) 4294967295

/-- The chunking loop of _send_file (source lines 93 to 96): repeated
f.read(CHUNK) until empty, so the file splits into 4096-byte pieces with a
shorter final piece and no pieces at all for an empty file. -/
def chunksOf (file : List Nat) : List (List Nat) :=
  if h : file = [] then [] else file.take CHUNK :: chunksOf (file.drop CHUNK)
termination_by file.length
decreasing_by
  simp only [List.length_drop, CHUNK]
  have : 0 < file.length := List.length_pos.mpr h
  omega

/-- The chunk frames built by _send_file (source line 97):
pkt = struct.pack(\x27!I H\x27, seq, len(data)) + data
    + struct.pack(\x27!I\x27, zlib.crc32(data) & 0xFFFFFFFF),
with consecutive sequence numbers; none models a struct.error raised
when a field is out of range. -/
def buildChunks : Nat → List (List Nat) → Option (List (List Nat))
  | _, [] => some []
  | seq, d :: ds =>
    match packBE 4 seq, packBE 2 d.length,
          packBE 4 (Nat.land (crc32 d) 4294967295), buildChunks (seq + 1) ds with
    | some sb, some lb, some cb, some rest => some ((sb ++ lb ++ d ++ cb) :: rest)
    | _, _, _, _ => none

/-- The handshake header built by _send_file (source line 76):
hdr = b\x27FILE\x27 + struct.pack(\x27!B\x27, len(fname)) + fname
    + struct.pack(\x27!Q\x27, size). -/
def headerFrame (name : List Nat) (size : Nat) : Option (List Nat) :=
  match packBE 1 name.length, packBE 8 size with
  | some lb, some sb => some (fileMagic ++ lb ++ name ++ sb)
  | _, _ => none

/-- Everything _send_file writes to the link during one complete transfer
on a lossless link that needs no retransmissions: the header (sent once,
answered OK), every chunk frame in sequence order, then the DONE sentinel
(source lines 73 to 126). -/
def senderWire (name file : List Nat) : Option (List Nat) :=
  match headerFrame name file.length, buildChunks 0 (chunksOf file) with
  | some hdr, some frames => some (hdr ++ frames.flatten ++ doneFrame)
  | _, _ => none

/-- The positive reply written by the receiver (source line 199):
b\x27ACK\x27 + struct.pack(\x27!I\x27, seq). -/
def ackFrame (seq : Nat) : List Nat := ackTag ++ toBytesBE 4 seq

/-- The negative reply written by the receiver (source lines 193 and 202):
b\x27NAK\x27 + struct.pack(\x27!I\x27, seq). -/
def nakFrame (seq : Nat) : List Nat := nakTag ++ toBytesBE 4 seq

/-- The in-transfer loop of _recv_loop (source lines 172 to 202).  State:
pending input s, bytes written to the output file out, the received byte
counter cnt, and the replies written so far resp.  Each iteration reads a
4-byte window; if it equals DONE the file is closed and the remaining
input returned for the next scan; otherwise the window is the first 4
bytes (the sequence field) of a 6-byte chunk header, 2 more header bytes
give the length, then payload and CRC are read, the CRC is recomputed and
compared, and the payload is written and acknowledged or refused with a
NAK.  Fuel bounds the number of iterations; none models a loop that
blocks forever on an exhausted input. -/
def recvChunks : Nat → List Nat → List Nat → Nat → List (List Nat) →
    Option (List Nat × Nat × List (List Nat) × List Nat)
  | 0, _, _, _, _ => none
  | fuel + 1, s, out, cnt, resp =>
    match readExact 4 s with
    | none => none
    | some (peek, s1) =>
      if peek = doneFrame then some (out, cnt, resp, s1)
      else
        match readExact 2 s1 with
        | none => none
        | some (r2, s2) =>
          match readExact (fromBytesBE r2) s2 with
          | none => none
          | some (data, s3) =>
            match readExact 4 s3 with
            | none => none
            | some (crcRaw, s4) =>
              if Nat.land (crc32 data) 4294967295 = fromBytesBE crcRaw then
                recvChunks fuel s4 (out ++ data) (cnt + fromBytesBE r2)
                  (resp ++ [ackFrame (fromBytesBE peek)])
              else
                recvChunks fuel s4 out cnt (resp ++ [nakFrame (fromBytesBE peek)])

/-- Model of posixpath.join(a, b) as called by _recv_loop (source line
165): b when b is absolute, otherwise a and b joined with a single
slash.  Byte 47 is the slash separator. -/
def joinPath (a b : List Nat) : List Nat :=
  if b.head? = some 47 then b
  else if a = [] then b
  else if a.getLast? = some 47 then a ++ b
  else a ++ [47] ++ b

/-- Header parsing and single-file reception after the FILE magic has
matched (source lines 154 to 202): read 1 length byte, that many name
bytes, 8 size bytes (the size is only displayed, never used for control),
reply OK, open joinPath outdir name, then run the chunk loop.  The name
is used exactly as received; Python decodes it with errors=ignore, which
is the identity on ASCII bytes. -/
def acceptAfterMagic (outdir s : List Nat) (fuel : Nat) :
    Option (List Nat × List Nat × Nat × List (List Nat) × List Nat) :=
  match readExact 1 s with
  | none => none
  | some (lnb, s2) =>
    match readExact (fromBytesBE lnb) s2 with
    | none => none
    | some (name, s3) =>
      match readExact 8 s3 with
      | none => none
      | some (_szb, s4) =>
        match recvChunks fuel s4 [] 0 [] with
        | none => none
        | some (out, cnt, resp, rest) => some (joinPath outdir name, out, cnt, resp, rest)

/-- One accept iteration of _recv_loop positioned at a transfer header:
read the 4 magic bytes and, when they match, accept one file.  Returns
the opened path, the file bytes written, the received counter, the
replies, and the input left for the next scan. -/
def recvSession (outdir s : List Nat) (fuel : Nat) :
    Option (List Nat × List Nat × Nat × List (List Nat) × List Nat) :=
  match readExact 4 s with
  | none => none
  | some (hdr, s1) => if hdr = fileMagic then acceptAfterMagic outdir s1 fuel else none

/-- The accept loop of _recv_loop (source lines 144 to 207): while the
stop flag is clear, read a 4-byte window; a window different from the
FILE magic is noisy or stale input and is silently discarded (source
lines 150 to 152, the loop just continues); a matching window starts one
file acceptance, after which the loop continues on the remaining input.
Returns the accepted (path, bytes) pairs and the unconsumed input.  The
stop flag is the recv_stop event checked at the top of each iteration
(source line 144); a blocked read or a blocked acceptance ends the run of
the model with the input at the blocking point. -/
def recvLoop : Nat → Bool → List Nat → List Nat → List (List Nat × List Nat) →
    List (List Nat × List Nat) × List Nat
  | 0, _, _, s, acc => (acc, s)
  | fuel + 1, stop, outdir, s, acc =>
    if stop then (acc, s)
    else
      match readExact 4 s with
      | none => (acc, s)
      | some (hdr, s1) =>
        if hdr = fileMagic then
          match acceptAfterMagic outdir s1 fuel with
          | none => (acc, s1)
          | some (path, out, _cnt, _resp, rest) =>
            recvLoop fuel stop outdir rest (acc ++ [(path, out)])
        else recvLoop fuel stop outdir s1 acc

/-- The default value of the blocking parameter of SerialBridge.__init__
(source line 31), used by the interactive shell when it constructs the
bridge (source line 230). -/
def defaultBlocking : Bool := true

/-- The serial read timeout chosen by SerialBridge.__init__ (source line
35): timeout=None, an unbounded blocking read, when blocking is true, and
a 1 second timeout otherwise. -/
def serTimeout (blocking : Bool) : Option Nat :=
  if blocking then none else some 1

/-- Classification of one 7-byte-read outcome by the per-chunk retry loop
of _send_file (source lines 100 to 120): an empty read retries; a reply
whose first three bytes are ACK has bytes 3 to 7 decoded by
struct.unpack, which raises struct.error (err) when the reply is shorter
than 7 bytes, advances on an exactly matching sequence, and retries on a
mismatch; every other reply, NAK included, retries. -/
inductive SendStep where
  | advance
  | retry
  | err
deriving DecidableEq

/-- The decision _send_file takes on one read reply for the chunk with
sequence number seq. -/
def classifyResp (seq : Nat) (r : List Nat) : SendStep :=
  if r = [] then SendStep.retry
  else if r.take 3 = ackTag then
    if 7 ≤ r.length then
      if fromBytesBE ((r.drop 3).take 4) = seq then SendStep.advance else SendStep.retry
    else SendStep.err
  else SendStep.retry

/-- Outcome of the inner retry loop for one chunk (source lines 98 to
122): ok when some attempt got a matching ACK, failed when the budget is
exhausted (TransferError), raised when struct.unpack raised. -/
inductive ChunkResult where
  | ok
  | failed
  | raised
deriving DecidableEq

/-- The inner retry loop for one chunk: at most the given number of
attempts, attempt i reading the i-th reply of rs (an exhausted rs reads
as empty). -/
def sendChunkLoop (seq : Nat) : Nat → List (List Nat) → ChunkResult
  | 0, _ => ChunkResult.failed
  | r + 1, rs =>
    match classifyResp seq (rs.headD []) with
    | SendStep.advance => ChunkResult.ok
    | SendStep.retry => sendChunkLoop seq r rs.tail
    | SendStep.err => ChunkResult.raised

/-- Outcome of the chunk-sending phase of _send_file for a whole file. -/
inductive SendOutcome where
  | complete (sent : Nat)
  | chunkFailure (seq : Nat)
  | raised (seq : Nat)
deriving DecidableEq

/-- The outer chunk loop of _send_file (source lines 92 to 123) over the
list of chunks, with rss giving each chunk its list of read replies:
advance to the next sequence number only after ok; an exhausted budget
raises TransferError for that sequence and stops (source line 122).  Also
returns the sequence numbers whose frames were written to the link, in
order. -/
def sendChunks : List (List Nat) → Nat → Nat → List (List (List Nat)) →
    SendOutcome × List Nat
  | [], _, sent, _ => (SendOutcome.complete sent, [])
  | d :: ds, seq, sent, rss =>
    match sendChunkLoop seq CHUNK_RETRIES (rss.headD []) with
    | ChunkResult.ok =>
      match sendChunks ds (seq + 1) (sent + d.length) rss.tail with
      | (res, written) => (res, seq :: written)
    | ChunkResult.failed => (SendOutcome.chunkFailure seq, [seq])
    | ChunkResult.raised => (SendOutcome.raised seq, [seq])

/-- One chunk frame as written by _send_file (source line 97) when every
field is in range: 4-byte sequence, 2-byte length, payload, 4-byte CRC of
the payload masked to 32 bits. -/
def chunkWire (seq : Nat) (d : List Nat) : List Nat :=
  toBytesBE 4 seq ++ toBytesBE 2 d.length ++ d ++ toBytesBE 4 (Nat.land (crc32 d) 4294967295)

/-- An arbitrary chunk frame as it appears on the wire, with an
independent CRC field, used to describe corrupted frames. -/
def chunkFrameRaw (seq : Nat) (payload : List Nat) (crcField : Nat) : List Nat :=
  toBytesBE 4 seq ++ toBytesBE 2 payload.length ++ payload ++ toBytesBE 4 crcField

/-- The replies a sender completing an n-chunk transfer must read: one
matching ACK per sequence number 0, 1, ..., n-1, in order. -/
def expectedAcks (n : Nat) : List (List Nat) :=
  (List.range' 0 n).map ackFrame

/-- Splitting a byte path on the slash byte, for reasoning about where a
received path points. -/
def pathComponents (p : List Nat) : List (List Nat) :=
  p.splitOn 47

/-- Resolution of dot-dot components of a relative path: a dot-dot pops
the previous component, empty and single-dot components vanish, everything
else is kept.  Used only to state where an unsanitized output path
escapes the output directory. -/
def resolveComponents (cs : List (List Nat)) : List (List Nat) :=
  cs.foldl
    (fun acc c =>
      if c = [46, 46] then acc.dropLast
      else if c = [] ∨ c = [46] then acc
      else acc ++ [c])
    []

/-! Helper lemmas about the byte codec and the engines, shared by the
claim theorems below. -/

theorem length_toBytesBE (w n : Nat) : (toBytesBE w n).length = w := by
  induction w generalizing n with
  | zero => rfl
  | succ w ih => simp [toBytesBE, ih]

theorem fromBytesBE_append_singleton (xs : List Nat) (b : Nat) :
    fromBytesBE (xs ++ [b]) = fromBytesBE xs * 256 + b := by
  simp [fromBytesBE, List.foldl_append]

theorem fromBytesBE_toBytesBE {w n : Nat} (h : n < 2 ^ (8 * w)) :
    fromBytesBE (toBytesBE w n) = n := by
  induction w generalizing n with
  | zero =>
    simp only [Nat.mul_zero, Nat.pow_zero, Nat.lt_one_iff] at h
    simp [toBytesBE, fromBytesBE, h]
  | succ w ih =>
    have hdiv : n / 256 < 2 ^ (8 * w) := by
      rw [Nat.div_lt_iff_lt_mul (by norm_num)]
      calc n < 2 ^ (8 * (w + 1)) := h
        _ = 2 ^ (8 * w) * 256 := by ring
    rw [toBytesBE, fromBytesBE_append_singleton, ih hdiv]
    omega

theorem readExact_append {n : Nat} {a : List Nat} (rest : List Nat) (h : a.length = n) :
    readExact n (a ++ rest) = some (a, rest) := by
  subst h
  simp [readExact, List.take_left, List.drop_left]

theorem land_mask_lt (x : Nat) : Nat.land x 4294967295 < 2 ^ 32 := by
  have : Nat.land x 4294967295 ≤ 4294967295 := Nat.and_le_right
  omega

theorem chunksOf_flatten (file : List Nat) : (chunksOf file).flatten = file := by
  induction file using chunksOf.induct with
  | case1 => rw [chunksOf]; simp
  | case2 f h ih =>
    rw [chunksOf]
    simp only [h, dite_false, List.flatten_cons, ih, List.take_append_drop]

/-- Reading a 4-byte window that equals the DONE sentinel closes the file:
state is returned unchanged together with the unconsumed input. -/
theorem recvChunks_doneStep (fuel : Nat) (rest out : List Nat) (cnt : Nat)
    (resp : List (List Nat)) :
    recvChunks (fuel + 1) (doneFrame ++ rest) out cnt resp = some (out, cnt, resp, rest) := by
  rw [recvChunks, readExact_append rest (by rfl)]
  simp

/-- Processing one complete chunk frame whose sequence field is not the
DONE sentinel: the payload is written and acknowledged when the
recomputed CRC equals the transmitted field, and refused with a NAK
otherwise; in both cases the loop continues on the remaining input. -/
theorem recvChunks_frameStep (fuel : Nat) {sb lb : List Nat} (d crcB rest out : List Nat)
    (cnt : Nat) (resp : List (List Nat))
    (h4 : sb.length = 4) (hne : sb ≠ doneFrame) (h2 : lb.length = 2)
    (hlen : fromBytesBE lb = d.length) (hc : crcB.length = 4) :
    recvChunks (fuel + 1) (sb ++ (lb ++ (d ++ (crcB ++ rest)))) out cnt resp =
      if Nat.land (crc32 d) 4294967295 = fromBytesBE crcB then
        recvChunks fuel rest (out ++ d) (cnt + d.length) (resp ++ [ackFrame (fromBytesBE sb)])
      else
        recvChunks fuel rest out cnt (resp ++ [nakFrame (fromBytesBE sb)]) := by
  have hd : readExact d.length (d ++ (crcB ++ rest)) = some (d, crcB ++ rest) :=
    readExact_append _ rfl
  simp only [recvChunks, readExact_append _ h4, readExact_append _ h2,
    readExact_append _ hc, hlen, hd, hne, if_false]

theorem packBE_eq_some {w n : Nat} {bs : List Nat} :
    packBE w n = some bs ↔ n < 2 ^ (8 * w) ∧ bs = toBytesBE w n := by
  by_cases h : n < 2 ^ (8 * w) <;> simp [packBE, h, eq_comm]

/-- A well-formed chunk frame whose sequence field does not collide with
the DONE sentinel and whose CRC field is the CRC of the payload is
accepted: payload appended to the file, counter advanced, ACK with the
frame sequence emitted. -/
theorem recvChunks_validStep (fuel seq : Nat) (d rest out : List Nat) (cnt : Nat)
    (resp : List (List Nat)) (hseq : seq < 2 ^ 32) (hne : toBytesBE 4 seq ≠ doneFrame)
    (hlen : d.length < 2 ^ 16) :
    recvChunks (fuel + 1) (chunkWire seq d ++ rest) out cnt resp =
      recvChunks fuel rest (out ++ d) (cnt + d.length) (resp ++ [ackFrame seq]) := by
  have hshape : chunkWire seq d ++ rest =
      toBytesBE 4 seq ++ (toBytesBE 2 d.length ++ (d ++
        (toBytesBE 4 (Nat.land (crc32 d) 4294967295) ++ rest))) := by
    simp [chunkWire, List.append_assoc]
  rw [hshape,
    recvChunks_frameStep fuel d _ rest out cnt resp (length_toBytesBE 4 seq) hne
      (length_toBytesBE 2 d.length)
      (fromBytesBE_toBytesBE (by simpa using hlen)) (length_toBytesBE 4 _),
    fromBytesBE_toBytesBE (by simpa using land_mask_lt (crc32 d)),
    fromBytesBE_toBytesBE (by simpa using hseq)]
  simp

/-- A well-formed chunk frame whose sequence field does not collide with
the DONE sentinel but whose CRC field differs from the CRC of the payload
is refused: nothing is written, the counter is unchanged, a NAK carrying
the frame sequence is emitted. -/
theorem recvChunks_nakStep (fuel seq : Nat) (d : List Nat) (crcF : Nat) (rest out : List Nat)
    (cnt : Nat) (resp : List (List Nat)) (hseq : seq < 2 ^ 32)
    (hne : toBytesBE 4 seq ≠ doneFrame) (hlen : d.length < 2 ^ 16) (hcrc : crcF < 2 ^ 32)
    (hbad : Nat.land (crc32 d) 4294967295 ≠ crcF) :
    recvChunks (fuel + 1) (chunkFrameRaw seq d crcF ++ rest) out cnt resp =
      recvChunks fuel rest out cnt (resp ++ [nakFrame seq]) := by
  have hshape : chunkFrameRaw seq d crcF ++ rest =
      toBytesBE 4 seq ++ (toBytesBE 2 d.length ++ (d ++ (toBytesBE 4 crcF ++ rest))) := by
    simp [chunkFrameRaw, List.append_assoc]
  rw [hshape,
    recvChunks_frameStep fuel d _ rest out cnt resp (length_toBytesBE 4 seq) hne
      (length_toBytesBE 2 d.length)
      (fromBytesBE_toBytesBE (by simpa using hlen)) (length_toBytesBE 4 _),
    fromBytesBE_toBytesBE (by simpa using hcrc),
    fromBytesBE_toBytesBE (by simpa using hseq)]
  simp [hbad]

/-- Characterization of a run of the chunk loop over the frames the
sender builds for the chunk list ds: when the run ends (DONE observed)
and the replies are exactly the in-order matching ACKs, the output equals
the concatenation of the chunks, the counter equals their total length,
and no input remains. -/
theorem recvChunks_buildRun (ds : List (List Nat)) :
    ∀ (seq0 : Nat) (frames : List (List Nat)) (fuel : Nat) (out0 : List Nat) (cnt0 : Nat)
      (resp0 : List (List Nat)) (out : List Nat) (cnt : Nat) (resp : List (List Nat))
      (rest : List Nat),
      buildChunks seq0 ds = some frames →
      recvChunks fuel (frames.flatten ++ doneFrame) out0 cnt0 resp0 =
        some (out, cnt, resp, rest) →
      resp = resp0 ++ (List.range' seq0 ds.length).map ackFrame →
      out = out0 ++ ds.flatten ∧ cnt = cnt0 + (ds.map List.length).sum ∧ rest = [] := by
  induction ds with
  | nil =>
    intro seq0 frames fuel out0 cnt0 resp0 out cnt resp rest hb hr hresp
    simp only [buildChunks, Option.some.injEq] at hb
    subst hb
    match fuel with
    | 0 => simp [recvChunks] at hr
    | f + 1 =>
      rw [List.flatten_nil, List.nil_append, ← List.append_nil doneFrame,
        recvChunks_doneStep] at hr
      obtain ⟨h1, h2, h3, h4⟩ := by simpa using hr
      simp_all
  | cons d ds ih =>
    intro seq0 frames fuel out0 cnt0 resp0 out cnt resp rest hb hr hresp
    rw [buildChunks] at hb
    rcases hsb : packBE 4 seq0 with _ | sb <;> rw [hsb] at hb
    · simp at hb
    rcases hlb : packBE 2 d.length with _ | lb <;> rw [hlb] at hb
    · simp at hb
    rcases hcb : packBE 4 (Nat.land (crc32 d) 4294967295) with _ | cb <;> rw [hcb] at hb
    · simp at hb
    rcases hds : buildChunks (seq0 + 1) ds with _ | fr <;> rw [hds] at hb
    · simp at hb
    simp only [Option.some.injEq] at hb
    subst hb
    obtain ⟨hseq, hsbv⟩ := packBE_eq_some.mp hsb
    obtain ⟨hdlen, hlbv⟩ := packBE_eq_some.mp hlb
    obtain ⟨_, hcbv⟩ := packBE_eq_some.mp hcb
    subst hsbv hlbv hcbv
    match fuel with
    | 0 => simp [recvChunks] at hr
    | f + 1 =>
      rw [List.flatten_cons] at hr
      by_cases hdone : toBytesBE 4 seq0 = doneFrame
      · -- the sequence field aliases the DONE sentinel: the receiver stops
        -- at once, so the reply list is too short to be the expected ACKs
        have hshape : (toBytesBE 4 seq0 ++ toBytesBE 2 d.length ++ d ++
            toBytesBE 4 (Nat.land (crc32 d) 4294967295)) ++ fr.flatten ++ doneFrame =
            doneFrame ++ (toBytesBE 2 d.length ++ d ++
              toBytesBE 4 (Nat.land (crc32 d) 4294967295) ++ fr.flatten ++ doneFrame) := by
          rw [← hdone]; simp [List.append_assoc]
        rw [hshape, recvChunks_doneStep] at hr
        obtain ⟨h1, h2, h3, h4⟩ := by simpa using hr
        subst h3
        have := congrArg List.length hresp
        simp [List.range'_succ] at this
      · have hshape : (toBytesBE 4 seq0 ++ toBytesBE 2 d.length ++ d ++
            toBytesBE 4 (Nat.land (crc32 d) 4294967295)) ++ fr.flatten ++ doneFrame =
            chunkWire seq0 d ++ (fr.flatten ++ doneFrame) := by
          simp [chunkWire, List.append_assoc]
        rw [hshape, recvChunks_validStep f seq0 d _ out0 cnt0 resp0
          (by simpa using hseq) hdone (by simpa using hdlen)] at hr
        have hresp' : resp = (resp0 ++ [ackFrame seq0]) ++
            (List.range' (seq0 + 1) ds.length).map ackFrame := by
          rw [hresp, List.length_cons, List.range'_succ seq0 ds.length 1]
          simp
        obtain ⟨ho, hc, hrr⟩ := ih (seq0 + 1) fr f (out0 ++ d) (cnt0 + d.length)
          (resp0 ++ [ackFrame seq0]) out cnt resp rest hds hr hresp'
        refine ⟨?_, ?_, hrr⟩
        · rw [ho]; simp
        · rw [hc]; simp [Nat.add_assoc]

theorem chunksOf_nil : chunksOf [] = [] := by
  rw [chunksOf]
  simp

/-- A nonempty file no longer than one chunk is sent as a single chunk. -/
theorem chunksOf_short {file : List Nat} (h0 : file ≠ []) (hle : file.length ≤ CHUNK) :
    chunksOf file = [file] := by
  rw [chunksOf]
  simp only [h0, dite_false]
  rw [List.take_of_length_le hle, List.drop_eq_nil_of_le hle, chunksOf_nil]

theorem getD_zero_headD (rs : List (List Nat)) : rs.getD 0 [] = rs.headD [] := by
  cases rs <;> rfl

theorem getD_tail_succ (rs : List (List Nat)) (i : Nat) :
    rs.tail.getD i [] = rs.getD (i + 1) [] := by
  cases rs <;> rfl

/-- The inner retry loop reports success only when some attempt within
the budget read a reply classified as advance, that is a full matching
ACK. -/
theorem sendChunkLoop_ok {seq : Nat} : ∀ (n : Nat) (rs : List (List Nat)),
    sendChunkLoop seq n rs = ChunkResult.ok →
    ∃ i, i < n ∧ classifyResp seq (rs.getD i []) = SendStep.advance := by
  intro n
  induction n with
  | zero => intro rs h; simp [sendChunkLoop] at h
  | succ m ih =>
    intro rs h
    rw [sendChunkLoop] at h
    rcases hc : classifyResp seq (rs.headD []) with _ | _ | _ <;> rw [hc] at h
    · exact ⟨0, by omega, by rwa [getD_zero_headD]⟩
    · obtain ⟨i, hi, hcl⟩ := ih rs.tail h
      exact ⟨i + 1, by omega, by rwa [getD_tail_succ] at hcl⟩
    · simp at h

/-- With the stop flag set, the accept loop returns before reading. -/
theorem recvLoop_stop (fuel : Nat) (outdir s : List Nat) (acc : List (List Nat × List Nat)) :
    recvLoop (fuel + 1) true outdir s acc = (acc, s) := by
  simp [recvLoop]

/-- A 4-byte window that is not the FILE magic is discarded and the scan
continues on the remaining input. -/
theorem recvLoop_skipStep (fuel : Nat) (outdir : List Nat) {w : List Nat} (rest : List Nat)
    (acc : List (List Nat × List Nat)) (h4 : w.length = 4) (hne : w ≠ fileMagic) :
    recvLoop (fuel + 1) false outdir (w ++ rest) acc = recvLoop fuel false outdir rest acc := by
  simp only [recvLoop, readExact_append rest h4, hne, if_false, Bool.false_eq_true]

/-- Any run of stray 4-byte windows, none of which equals the FILE magic,
is discarded whole and scanning continues. -/
theorem recvLoop_skipBlocks (blocks : List (List Nat))
    (h : ∀ b ∈ blocks, b.length = 4 ∧ b ≠ fileMagic) (fuel : Nat) (outdir rest : List Nat)
    (acc : List (List Nat × List Nat)) :
    recvLoop (blocks.length + fuel) false outdir (blocks.flatten ++ rest) acc =
      recvLoop fuel false outdir rest acc := by
  induction blocks with
  | nil => simp
  | cons b bs ih =>
    obtain ⟨h4, hne⟩ := h b (List.mem_cons_self b bs)
    have hrest := fun x hx => h x (List.mem_cons_of_mem b hx)
    rw [List.length_cons, List.flatten_cons, List.append_assoc, Nat.add_right_comm,
      recvLoop_skipStep (bs.length + fuel) outdir _ acc h4 hne, ih hrest]

/-- Accepting a header frame for an empty file followed by the DONE
sentinel: the loop opens joinPath outdir name, writes nothing, and
resumes scanning on the remaining input. -/
theorem recvLoop_acceptStep {name : List Nat} {sz : Nat} {w : List Nat}
    (hhf : headerFrame name sz = some w) (fuel : Nat) (outdir rest : List Nat)
    (acc : List (List Nat × List Nat)) :
    recvLoop (fuel + 2) false outdir (w ++ (doneFrame ++ rest)) acc =
      recvLoop (fuel + 1) false outdir rest (acc ++ [(joinPath outdir name, [])]) := by
  rw [headerFrame] at hhf
  rcases hlb : packBE 1 name.length with _ | lb <;> rw [hlb] at hhf
  · simp at hhf
  rcases hsb : packBE 8 sz with _ | sb <;> rw [hsb] at hhf
  · simp at hhf
  simp only [Option.some.injEq] at hhf
  subst hhf
  obtain ⟨hnlen, hlbv⟩ := packBE_eq_some.mp hlb
  obtain ⟨_, hsbv⟩ := packBE_eq_some.mp hsb
  subst hlbv hsbv
  have hshape : (fileMagic ++ toBytesBE 1 name.length ++ name ++ toBytesBE 8 sz) ++
      (doneFrame ++ rest) = fileMagic ++ (toBytesBE 1 name.length ++ (name ++
        (toBytesBE 8 sz ++ (doneFrame ++ rest)))) := by
    simp [List.append_assoc]
  have rMagic : ∀ r : List Nat, readExact 4 (fileMagic ++ r) = some (fileMagic, r) :=
    fun r => readExact_append r rfl
  have rLen : ∀ r : List Nat,
      readExact 1 (toBytesBE 1 name.length ++ r) = some (toBytesBE 1 name.length, r) :=
    fun r => readExact_append r (length_toBytesBE 1 name.length)
  have rName : ∀ r : List Nat, readExact name.length (name ++ r) = some (name, r) :=
    fun r => readExact_append r rfl
  have rSz : ∀ r : List Nat, readExact 8 (toBytesBE 8 sz ++ r) = some (toBytesBE 8 sz, r) :=
    fun r => readExact_append r (length_toBytesBE 8 sz)
  rw [hshape]
  conv_lhs => rw [show fuel + 2 = (fuel + 1) + 1 from rfl, recvLoop]
  simp only [Bool.false_eq_true, if_false, rMagic, if_true, acceptAfterMagic, rLen,
    fromBytesBE_toBytesBE hnlen, rName, rSz, recvChunks_doneStep]

/-! Claim theorems. -/

/-- C1.  For every file (size zero included) carried over a lossless
link, a completed run of _send_file paired with one accept iteration of
_recv_loop leaves the receiver byte counter equal to the file size and an
output byte-for-byte identical to the input.  A completed run is one
where the sender read the in-order matching ACK for every chunk, which is
exactly the reply list the receiver must have produced.  In particular a
zero-length file yields no chunks at all, so after the handshake header
the sender immediately transmits the DONE sentinel and nothing else. -/
theorem C1_lossless_roundtrip :
    (∀ (name file w outdir : List Nat) (fuel : Nat) (path out : List Nat) (cnt : Nat)
        (resp : List (List Nat)) (rest : List Nat),
        senderWire name file = some w →
        recvSession outdir w fuel = some (path, out, cnt, resp, rest) →
        resp = expectedAcks (chunksOf file).length →
        out = file ∧ cnt = file.length ∧ rest = [])
    ∧ chunksOf [] = []
    ∧ (∀ name hdr : List Nat, headerFrame name 0 = some hdr →
        senderWire name [] = some (hdr ++ doneFrame)) := by
  refine ⟨?_, chunksOf_nil, ?_⟩
  · intro name file w outdir fuel path out cnt resp rest hsw hrs hresp
    rw [senderWire] at hsw
    rcases hhf : headerFrame name file.length with _ | hdr <;> rw [hhf] at hsw
    · simp at hsw
    rcases hbc : buildChunks 0 (chunksOf file) with _ | frames <;> rw [hbc] at hsw
    · simp at hsw
    simp only [Option.some.injEq] at hsw
    subst hsw
    rw [headerFrame] at hhf
    rcases hlb : packBE 1 name.length with _ | lb <;> rw [hlb] at hhf
    · simp at hhf
    rcases hsz : packBE 8 file.length with _ | szb <;> rw [hsz] at hhf
    · simp at hhf
    simp only [Option.some.injEq] at hhf
    subst hhf
    obtain ⟨hnlen, hlbv⟩ := packBE_eq_some.mp hlb
    obtain ⟨_, hszv⟩ := packBE_eq_some.mp hsz
    subst hlbv hszv
    have rMagic : ∀ r : List Nat, readExact 4 (fileMagic ++ r) = some (fileMagic, r) :=
      fun r => readExact_append r rfl
    have rLen : ∀ r : List Nat,
        readExact 1 (toBytesBE 1 name.length ++ r) = some (toBytesBE 1 name.length, r) :=
      fun r => readExact_append r (length_toBytesBE 1 name.length)
    have rName : ∀ r : List Nat, readExact name.length (name ++ r) = some (name, r) :=
      fun r => readExact_append r rfl
    have rSz : ∀ r : List Nat,
        readExact 8 (toBytesBE 8 file.length ++ r) = some (toBytesBE 8 file.length, r) :=
      fun r => readExact_append r (length_toBytesBE 8 file.length)
    have hshape : (fileMagic ++ toBytesBE 1 name.length ++ name ++ toBytesBE 8 file.length) ++
        frames.flatten ++ doneFrame = fileMagic ++ (toBytesBE 1 name.length ++ (name ++
          (toBytesBE 8 file.length ++ (frames.flatten ++ doneFrame)))) := by
      simp [List.append_assoc]
    rw [hshape] at hrs
    rw [recvSession] at hrs
    rw [rMagic] at hrs
    simp only [if_true, acceptAfterMagic, rLen, fromBytesBE_toBytesBE hnlen, rName, rSz] at hrs
    rcases hrc : recvChunks fuel (frames.flatten ++ doneFrame) [] 0 [] with _ | res <;>
      rw [hrc] at hrs
    · simp at hrs
    rcases res with ⟨o, c, rp, rs⟩
    simp only [Option.some.injEq, Prod.mk.injEq] at hrs
    obtain ⟨-, ho, hc, hrp, hrs'⟩ := hrs
    subst ho hc hrp hrs'
    have hresp' : rp = [] ++ (List.range' 0 (chunksOf file).length).map ackFrame := by
      simpa [expectedAcks] using hresp
    obtain ⟨h1, h2, h3⟩ :=
      recvChunks_buildRun (chunksOf file) 0 frames fuel [] 0 [] o c rp rs hbc hrc hresp'
    refine ⟨?_, ?_, h3⟩
    · rw [h1, List.nil_append, chunksOf_flatten]
    · rw [h2, Nat.zero_add, ← List.length_flatten, chunksOf_flatten]
  · intro name hdr hh
    rw [senderWire]
    simp only [List.length_nil, chunksOf_nil, buildChunks]
    rw [hh]
    simp

/-- C1 witness: the single-byte file [7] named a, sent and received over
directory dot with fuel 2, round-trips exactly. -/
theorem C1_lossless_roundtrip_witness :
    ([7] : List Nat) = [7] ∧ (1 : Nat) = ([7] : List Nat).length ∧ ([] : List Nat) = [] :=
  C1_lossless_roundtrip.1 [97] [7]
    [70, 73, 76, 69, 1, 97, 0, 0, 0, 0, 0, 0, 0, 1,
     0, 0, 0, 0, 0, 1, 7, 76, 102, 122, 46, 68, 79, 78, 69]
    [46] 2 [46, 47, 97] [7] 1 [[65, 67, 75, 0, 0, 0, 0]] []
    (by rw [senderWire, chunksOf_short (by decide) (by decide)]; decide)
    (by decide)
    (by rw [chunksOf_short (by decide) (by decide)]; decide)

/-- C2 as stated is violated by one corner of the framing: a chunk frame
whose 4-byte sequence field is 1146048069, whose big-endian encoding is
exactly the DONE sentinel bytes, is taken by the receiver as end of
stream, so a corrupted CRC on that frame draws no NAK at all (the
receiver closes the file and replies nothing).  Here the frame carries
payload [0] and CRC field 0, which differs from the true CRC of [0]. -/
theorem C2_crc_mismatch_counterexample :
    recvChunks 1 (chunkFrameRaw 1146048069 [0] 0) [] 0 [] =
      some ([], 0, [], [0, 1, 0, 0, 0, 0, 0]) ∧
    Nat.land (crc32 [0]) 4294967295 ≠ 0 := by
  decide

/-- C2 amended: for every chunk frame whose sequence field does not
collide with the DONE sentinel and whose transmitted CRC field differs
from the CRC-32 of the received payload, the receiver replies NAK
carrying that frame sequence number, writes nothing to the output file,
and leaves the received byte counter unchanged. -/
theorem C2_crc_mismatch_naks (fuel seq : Nat) (d : List Nat) (crcF : Nat)
    (rest out : List Nat) (cnt : Nat) (resp : List (List Nat)) (hseq : seq < 2 ^ 32)
    (hne : toBytesBE 4 seq ≠ doneFrame) (hlen : d.length < 2 ^ 16) (hcrc : crcF < 2 ^ 32)
    (hbad : Nat.land (crc32 d) 4294967295 ≠ crcF) :
    recvChunks (fuel + 1) (chunkFrameRaw seq d crcF ++ rest) out cnt resp =
      recvChunks fuel rest out cnt (resp ++ [nakFrame seq]) :=
  recvChunks_nakStep fuel seq d crcF rest out cnt resp hseq hne hlen hcrc hbad

/-- C2 witness: a concrete corrupted frame (sequence 0, payload [7], CRC
field 0) is refused with NAK 0 and nothing written. -/
theorem C2_crc_mismatch_naks_witness :
    recvChunks 2 (chunkFrameRaw 0 [7] 0 ++ doneFrame) [] 0 [] =
      recvChunks 1 doneFrame [] 0 ([] ++ [nakFrame 0]) :=
  C2_crc_mismatch_naks 1 0 [7] 0 doneFrame [] 0 [] (by decide) (by decide) (by decide)
    (by decide) (by decide)

/-- C3 is violated: the receiver keeps no record of the last written
sequence, so a retransmitted copy of the already-acknowledged chunk 0
(valid checksum) is written a second time.  On the concrete stream
carrying chunk 0 with payload [7] twice and then DONE, the output file
holds [7, 7] and the counter reads 2, with two ACKs for sequence 0. -/
theorem C3_duplicate_write_counterexample :
    recvChunks 3 (chunkWire 0 [7] ++ (chunkWire 0 [7] ++ doneFrame)) [] 0 [] =
      some ([7, 7], 2, [ackFrame 0, ackFrame 0], []) := by
  decide

/-- C3 amended: the receiver accepts a chunk on checksum alone,
irrespective of its sequence number and of everything already written:
every well-formed valid-CRC frame, duplicate or not, is appended to the
file, added to the counter, and acknowledged. -/
theorem C3_no_duplicate_suppression (fuel seq : Nat) (d rest out : List Nat) (cnt : Nat)
    (resp : List (List Nat)) (hseq : seq < 2 ^ 32) (hne : toBytesBE 4 seq ≠ doneFrame)
    (hlen : d.length < 2 ^ 16) :
    recvChunks (fuel + 1) (chunkWire seq d ++ rest) out cnt resp =
      recvChunks fuel rest (out ++ d) (cnt + d.length) (resp ++ [ackFrame seq]) :=
  recvChunks_validStep fuel seq d rest out cnt resp hseq hne hlen

/-- C3 witness: after chunk 0 was already written and acknowledged, the
same frame is accepted again, doubling the payload. -/
theorem C3_no_duplicate_suppression_witness :
    recvChunks 2 (chunkWire 0 [7] ++ doneFrame) [7] 1 [ackFrame 0] =
      recvChunks 1 doneFrame ([7] ++ [7]) (1 + 1) ([ackFrame 0] ++ [ackFrame 0]) :=
  C3_no_duplicate_suppression 1 0 [7] doneFrame [7] 1 [ackFrame 0] (by decide) (by decide)
    (by decide)

/-- C4.  Mid-transfer the receiver reads a fixed 4-byte window and tests
it against the DONE sentinel before any chunk-header interpretation:
whenever the sentinel arrives at that read, the file is closed with state
untouched and the remaining input is handed back for scanning.  The
second conjunct runs the accept loop over two complete back-to-back
transfers (files [5] named a and [6] named b): both are accepted, showing
the loop returns to header scanning after each DONE. -/
theorem C4_done_window :
    (∀ (fuel : Nat) (rest out : List Nat) (cnt : Nat) (resp : List (List Nat)),
        recvChunks (fuel + 1) (doneFrame ++ rest) out cnt resp = some (out, cnt, resp, rest))
    ∧ recvLoop 4 false [46]
        ([70, 73, 76, 69, 1, 97, 0, 0, 0, 0, 0, 0, 0, 1,
          0, 0, 0, 0, 0, 1, 5, 162, 104, 27, 2, 68, 79, 78, 69] ++
         [70, 73, 76, 69, 1, 98, 0, 0, 0, 0, 0, 0, 0, 1,
          0, 0, 0, 0, 0, 1, 6, 59, 97, 74, 184, 68, 79, 78, 69]) [] =
        ([([46, 47, 97], [5]), ([46, 47, 98], [6])], []) := by
  exact ⟨fun fuel rest out cnt resp => recvChunks_doneStep fuel rest out cnt resp, by decide⟩

/-- C5 as stated is violated in one corner: a short read whose first
three bytes are ACK but which is shorter than 7 bytes reaches
struct.unpack on fewer than 4 sequence bytes, which raises struct.error
and aborts the transfer instead of retrying.  With the reply of one
attempt being exactly the three bytes ACK, the retry loop ends in the
raised state, not a retry. -/
theorem C5_short_ack_counterexample :
    sendChunkLoop 0 CHUNK_RETRIES [[65, 67, 75]] = ChunkResult.raised := by
  decide

/-- C5 amended: the sender advances past a chunk only on a reply that
begins with ACK, is at least 7 bytes long, and whose 4-byte sequence
field equals exactly the current sequence number.  A NAK reply, an empty
read, or a full-length ACK with a mismatched sequence all cause the same
chunk to be retried; but a reply beginning with ACK that is shorter than
7 bytes raises struct.error and is treated as fatal, not retried.  The
last conjunct lifts this to the retry loop: it reports success only when
some attempt within the budget read a full matching ACK. -/
theorem C5_ack_discipline (seq : Nat) (r : List Nat) :
    (classifyResp seq r = SendStep.advance ↔
      r.take 3 = ackTag ∧ 7 ≤ r.length ∧ fromBytesBE ((r.drop 3).take 4) = seq)
    ∧ (r.take 3 = nakTag → classifyResp seq r = SendStep.retry)
    ∧ (r = [] → classifyResp seq r = SendStep.retry)
    ∧ (r.take 3 = ackTag → 7 ≤ r.length → fromBytesBE ((r.drop 3).take 4) ≠ seq →
        classifyResp seq r = SendStep.retry)
    ∧ (r.take 3 = ackTag → r.length < 7 → classifyResp seq r = SendStep.err)
    ∧ (∀ (n : Nat) (rs : List (List Nat)), sendChunkLoop seq n rs = ChunkResult.ok →
        ∃ i, i < n ∧ classifyResp seq (rs.getD i []) = SendStep.advance) := by
  refine ⟨?_, ?_, ?_, ?_, ?_, fun n rs h => sendChunkLoop_ok n rs h⟩ <;>
    unfold classifyResp <;> split_ifs <;> simp_all [ackTag, nakTag] <;> omega

/-- C5 witness: a NAK for the current sequence retries, a full matching
ACK advances. -/
theorem C5_ack_discipline_witness :
    classifyResp 5 (nakFrame 5) = SendStep.retry ∧
    classifyResp 5 (ackFrame 5) = SendStep.advance :=
  ⟨(C5_ack_discipline 5 (nakFrame 5)).2.1 (by decide),
   (C5_ack_discipline 5 (ackFrame 5)).1.mpr (by decide)⟩

/-- C6.  When the inner retry budget for one chunk is exhausted, the
whole transfer ends with a chunk-failure error naming that sequence, and
the frames written to the link are exactly the consecutive sequences from
the first up to and including the failed one: the failed chunk is never
skipped and no later chunk is ever sent. -/
theorem C6_chunk_failure_aborts (ds : List (List Nat)) :
    ∀ (seq0 sent0 : Nat) (rss : List (List (List Nat))) (s : Nat) (written : List Nat),
      sendChunks ds seq0 sent0 rss = (SendOutcome.chunkFailure s, written) →
      seq0 ≤ s ∧ s < seq0 + ds.length ∧ written = List.range' seq0 (s + 1 - seq0) := by
  induction ds with
  | nil => intro seq0 sent0 rss s written h; simp [sendChunks] at h
  | cons d ds ih =>
    intro seq0 sent0 rss s written h
    rw [sendChunks] at h
    rcases hl : sendChunkLoop seq0 CHUNK_RETRIES (rss.headD []) with _ | _ | _ <;> rw [hl] at h
    · rcases hres : sendChunks ds (seq0 + 1) (sent0 + d.length) rss.tail with ⟨o, ww⟩
      rw [hres] at h
      simp only [Prod.mk.injEq] at h
      obtain ⟨ho, hw⟩ := h
      obtain ⟨hb1, hb2, hb3⟩ := ih (seq0 + 1) (sent0 + d.length) rss.tail s ww (by rw [hres, ho])
      refine ⟨by omega, by simp only [List.length_cons]; omega, ?_⟩
      have harith : s + 1 - seq0 = (s - seq0) + 1 := by omega
      have harith2 : s + 1 - (seq0 + 1) = s - seq0 := by omega
      rw [← hw, hb3, harith, harith2, List.range'_succ seq0 (s - seq0) 1]
    · simp only [Prod.mk.injEq, SendOutcome.chunkFailure.injEq] at h
      obtain ⟨hs, hw⟩ := h
      refine ⟨by omega, by simp only [List.length_cons]; omega, ?_⟩
      have h1 : s + 1 - seq0 = 1 := by omega
      rw [← hw, h1, hs]
      simp
    · simp at h

/-- C6 witness: two chunks with no replies at all fail at sequence 0,
with only sequence 0 ever written. -/
theorem C6_chunk_failure_aborts_witness :
    (0 : Nat) ≤ 0 ∧ (0 : Nat) < 0 + 2 ∧ ([0] : List Nat) = List.range' 0 (0 + 1 - 0) :=
  C6_chunk_failure_aborts [[1], [2]] 0 0 [] 0 [0] (by decide)

/-- C7 as stated is violated: the idle scan reads the input in 4-byte
strides and discards each non-matching window whole, so a header preceded
by a number of stray bytes that is not a multiple of 4 straddles the
window boundary and is missed.  One stray zero byte followed by a
complete header for the empty file named a and the DONE sentinel yields
no accepted file: the loop discards four misaligned windows and then
blocks on the 2 leftover bytes. -/
theorem C7_alignment_counterexample :
    recvLoop 10 false [46]
      ([0] ++ ([70, 73, 76, 69, 1, 97, 0, 0, 0, 0, 0, 0, 0, 0] ++ doneFrame)) [] =
      ([], [79, 78, 69]) := by
  decide

/-- C7 amended: stray windows never abort the accept loop; every 4-byte
window differing from the FILE magic is silently discarded and scanning
continues (first and second conjuncts, single window and any run of
windows), and a header that arrives aligned on the 4-byte read boundary,
that is after a stray run whose total length is a multiple of 4 with no
window equal to the magic, is then accepted (third conjunct, shown for a
header followed by DONE).  Acceptance at an arbitrary alignment, as the
claim states it, does not hold. -/
theorem C7_stray_scan :
    (∀ (fuel : Nat) (outdir : List Nat) (w rest : List Nat) (acc : List (List Nat × List Nat)),
        w.length = 4 → w ≠ fileMagic →
        recvLoop (fuel + 1) false outdir (w ++ rest) acc = recvLoop fuel false outdir rest acc)
    ∧ (∀ (blocks : List (List Nat)) (fuel : Nat) (outdir rest : List Nat)
          (acc : List (List Nat × List Nat)),
        (∀ b ∈ blocks, b.length = 4 ∧ b ≠ fileMagic) →
        recvLoop (blocks.length + fuel) false outdir (blocks.flatten ++ rest) acc =
          recvLoop fuel false outdir rest acc)
    ∧ (∀ (name : List Nat) (sz : Nat) (w : List Nat) (fuel : Nat)
          (outdir rest : List Nat) (acc : List (List Nat × List Nat)),
        headerFrame name sz = some w →
        recvLoop (fuel + 2) false outdir (w ++ (doneFrame ++ rest)) acc =
          recvLoop (fuel + 1) false outdir rest (acc ++ [(joinPath outdir name, [])])) :=
  ⟨fun fuel outdir w rest acc h4 hne => recvLoop_skipStep fuel outdir rest acc h4 hne,
   fun blocks fuel outdir rest acc h => recvLoop_skipBlocks blocks h fuel outdir rest acc,
   fun _name _sz _w fuel outdir rest acc hhf => recvLoop_acceptStep hhf fuel outdir rest acc⟩

/-- C7 witness: one aligned stray window is discarded, and an aligned
header for the empty file named a is then accepted. -/
theorem C7_stray_scan_witness :
    recvLoop (1 + 1) false [46] ([[0, 0, 0, 0]].flatten ++ []) [] =
      recvLoop 1 false [46] [] [] ∧
    recvLoop 3 false [46]
        ([70, 73, 76, 69, 1, 97, 0, 0, 0, 0, 0, 0, 0, 0] ++ (doneFrame ++ [])) [] =
      recvLoop 2 false [46] [] ([] ++ [(joinPath [46] [97], [])]) :=
  ⟨C7_stray_scan.2.1 [[0, 0, 0, 0]] 1 [46] [] [] (by decide),
   C7_stray_scan.2.2 [97] 0 _ 1 [46] [] [] (by decide)⟩

/-- C8 as stated is violated: the interactive shell constructs the bridge
with the default blocking mode, and in that mode SerialBridge.__init__
passes timeout=None to the serial port, so the accept-loop reads are not
bounded by any timeout and a stop flag set while a read is blocked is not
observed. -/
theorem C8_unbounded_read_counterexample : serTimeout defaultBlocking = none := by
  decide

/-- C8 amended: reads are bounded by a 1-second timeout only when the
bridge is constructed with blocking set to false; in the default blocking
construction the timeout is None, so reads are unbounded.  Independently,
the accept loop checks the stop flag before every header read, so once
the flag observation happens while idle, the loop exits at once, reading
nothing further and accepting no file. -/
theorem C8_stop_and_timeout :
    serTimeout false = some 1 ∧ serTimeout true = none ∧
    (∀ (fuel : Nat) (outdir s : List Nat) (acc : List (List Nat × List Nat)),
      recvLoop (fuel + 1) true outdir s acc = (acc, s)) :=
  ⟨rfl, rfl, fun fuel outdir s acc => recvLoop_stop fuel outdir s acc⟩

/-- C9 as stated is violated on both of its totality limbs: building a
header for a 256-byte file name raises struct.error (the 1-byte length
field cannot hold 256), and building a chunk frame for sequence number
2 to the 32 raises struct.error instead of wrapping the field. -/
theorem C9_encode_counterexample :
    headerFrame (List.replicate 256 97) 0 = none ∧ buildChunks 4294967296 [[1]] = none := by
  constructor
  · rw [headerFrame]
    have hp : packBE 1 (List.replicate 256 (97 : Nat)).length = none := by
      rw [List.length_replicate]
      decide
    rw [hp]
  · decide

/-- C9 amended: frame building is a pure function of its inputs (hence
deterministic) and is total exactly on the in-range domain: names of at
most 255 bytes with sizes below 2 to the 64 for headers, and sequence
numbers below 2 to the 32 with payloads below 2 to the 16 bytes for
chunks.  Outside that domain struct.pack raises; no field wraps. -/
theorem C9_encode_total (name : List Nat) (sz seq : Nat) (d : List Nat)
    (hname : name.length ≤ 255) (hsz : sz < 2 ^ 64) (hseq : seq < 2 ^ 32)
    (hd : d.length < 2 ^ 16) :
    (headerFrame name sz).isSome ∧ (buildChunks seq [d]).isSome := by
  have e1 : name.length < 256 := by omega
  have e2 : sz < 18446744073709551616 := by omega
  have e3 : seq < 4294967296 := by omega
  have e4 : d.length < 65536 := by omega
  have e5 : Nat.land (crc32 d) 4294967295 < 4294967296 := by
    have := land_mask_lt (crc32 d)
    omega
  constructor
  · rw [headerFrame]
    simp [packBE, e1, e2]
  · rw [buildChunks]
    simp [packBE, e3, e4, e5, buildChunks]

/-- C9 witness: the single-byte name a with size 0 and the chunk with
sequence 0 and payload [7] both encode. -/
theorem C9_encode_total_witness :
    (headerFrame [97] 0).isSome ∧ (buildChunks 0 [[7]]).isSome :=
  C9_encode_total [97] 0 0 [7] (by decide) (by decide) (by decide) (by decide)

/-- C10.  The receiver opens its output file at exactly the join of the
output directory with the sender-supplied name, with no sanitization
(first conjunct, for any ASCII name, on which the errors-ignore decode of
the source is the identity).  Consequently a header whose name is dot dot
slash evil, joined under the directory out, yields the path
out/../evil, whose dot-dot resolution is the single component evil:
the file is created outside the requested output directory (remaining
conjuncts). -/
theorem C10_unsanitized_path :
    (∀ (outdir name : List Nat) (sz : Nat) (w : List Nat) (fuel : Nat)
        (rest : List Nat) (acc : List (List Nat × List Nat)),
        headerFrame name sz = some w → (∀ b ∈ name, b < 128) →
        recvLoop (fuel + 2) false outdir (w ++ (doneFrame ++ rest)) acc =
          recvLoop (fuel + 1) false outdir rest (acc ++ [(joinPath outdir name, [])]))
    ∧ joinPath [111, 117, 116] [46, 46, 47, 101, 118, 105, 108] =
        [111, 117, 116, 47, 46, 46, 47, 101, 118, 105, 108]
    ∧ resolveComponents (pathComponents
        [111, 117, 116, 47, 46, 46, 47, 101, 118, 105, 108]) = [[101, 118, 105, 108]]
    ∧ ([[101, 118, 105, 108]] : List (List Nat)).head? ≠ some [111, 117, 116] := by
  refine ⟨fun outdir name sz w fuel rest acc hhf _ =>
    recvLoop_acceptStep hhf fuel outdir rest acc, by decide, by decide, by decide⟩

/-- C10 witness: a header naming dot dot slash evil under the output
directory out opens out/../evil. -/
theorem C10_unsanitized_path_witness :
    recvLoop 3 false [111, 117, 116]
        ([70, 73, 76, 69, 7, 46, 46, 47, 101, 118, 105, 108, 0, 0, 0, 0, 0, 0, 0, 0] ++
          (doneFrame ++ [])) [] =
      recvLoop 2 false [111, 117, 116] []
        ([] ++ [(joinPath [111, 117, 116] [46, 46, 47, 101, 118, 105, 108], [])]) :=
  C10_unsanitized_path.1 [111, 117, 116] [46, 46, 47, 101, 118, 105, 108] 0 _ 1 [] []
    (by decide) (by decide)

end USBBridge
